import Mathlib

/-!
Verification of the file classification and dual-encoding upload pipeline of the
agent-chat-ui repository.

The embedding models JavaScript strings as lists of characters (`JStr`), the DOM
`File` object as a structure of its observed fields, and the asynchronous
environment (file-reader success, upload outcome, server clock, generated UUID)
as explicit parameters.  Every definition is translated from the TypeScript
source; platform primitives (`String.prototype.split`, `endsWith`,
`toLowerCase`, `Array.prototype.pop`, `FileReader.readAsDataURL`) are modelled
by small Lean functions with the same observable behaviour.
-/

deriving instance DecidableEq for Except

/-- A JavaScript string, modelled as its list of characters. -/
abbrev JStr := List Char

/-- `s.toLowerCase()`. -/
def jsToLower (s : JStr) : JStr := s.map Char.toLower

/-- `s.endsWith(t)`. -/
def jsEndsWith (s t : JStr) : Bool := t.isSuffixOf s

/-- `s.startsWith(t)`. -/
def jsStartsWith (s t : JStr) : Bool := t.isPrefixOf s

/-- `s.split(sep)` for a one-character separator: JavaScript `String.prototype.split`. -/
def jsSplitChar (sep : Char) : JStr → List JStr
  | [] => [[]]
  | c :: rest =>
    if c = sep then [] :: jsSplitChar sep rest
    else
      match jsSplitChar sep rest with
      | [] => [[c]]
      | g :: gs => (c :: g) :: gs

/-- `arr.pop()` on the (always non-empty) result of a split: the last element. -/
def jsPop (l : List JStr) : JStr := l.getLastD []

/-- The DOM `File` object: declared name, declared MIME type, byte size and content. -/
structure File where
  name : JStr
  type : JStr
  size : Nat
  bytes : List Nat
deriving DecidableEq

/-- Metadata of an object-store upload, from `S3UploadResult` in `s3-upload.ts`
and the route handler's response body. -/
structure S3Metadata where
  filename : JStr
  original_name : JStr
  size : Nat
  mime_type : JStr
  uploaded_at : JStr
deriving DecidableEq

/-- `S3UploadResult` from `s3-upload.ts`. -/
structure S3UploadResult where
  s3_key : JStr
  s3_bucket : JStr
  s3_region : JStr
  metadata : S3Metadata
deriving DecidableEq

/-- The `ContentBlock` union of `multimodal-utils.ts` (S3 variant):
an image block, an inline base64 file block, or an S3 remote-reference block.
The `data` field is `Option JStr` because `fileToBase64` can resolve with
JavaScript `undefined` when the data URL contains no comma. -/
inductive ContentBlock
  | image (mime_type : JStr) (data : Option JStr) (name : JStr)
  | fileB64 (mime_type : JStr) (data : Option JStr) (filename : JStr)
  | fileS3 (s3_key : JStr) (s3_bucket : JStr) (s3_region : JStr) (metadata : S3Metadata)
deriving DecidableEq

/-- `b.type` as read by the runtime shape checks (`"image"` or `"file"`). -/
def blockKind : ContentBlock → JStr
  | .image .. => "image".data
  | .fileB64 .. => "file".data
  | .fileS3 .. => "file".data

/-- `b.mime_type`: `undefined` (`none`) on S3 blocks. -/
def blockMimeType : ContentBlock → Option JStr
  | .image mt _ _ => some mt
  | .fileB64 mt _ _ => some mt
  | .fileS3 .. => none

/-- `b.metadata?.filename`: present on file blocks only. -/
def blockMetaFilename : ContentBlock → Option JStr
  | .image .. => none
  | .fileB64 _ _ fn => some fn
  | .fileS3 _ _ _ m => some m.filename

/-- `b.metadata?.name`: present on image blocks only. -/
def blockMetaName : ContentBlock → Option JStr
  | .image _ _ n => some n
  | .fileB64 .. => none
  | .fileS3 .. => none

/-- The original file name a block stands for: `metadata.filename` on inline file
blocks, `metadata.original_name` on S3 blocks (display-name key of §3 of the spec). -/
def fileOriginalNames (blocks : List ContentBlock) : List JStr :=
  blocks.filterMap fun b =>
    match b with
    | .image .. => none
    | .fileB64 _ _ fn => some fn
    | .fileS3 _ _ _ m => some m.original_name

/-! ### Base64 encoding

The browser's `FileReader.readAsDataURL` produces `data:<type>;base64,<payload>`
where `<payload>` is the standard base64 encoding of the file bytes.  The
encoding is modelled here; `base64Decode` is the standard decoder used to state
the round-trip property. -/

/-- The 64-character base64 alphabet. -/
def base64Chars : JStr :=
  "ABCDEFGHIJKLMNOPQRSTUVWXYZabcdefghijklmnopqrstuvwxyz0123456789+/".data

/-- Character of a sextet value. -/
def sextetChar (n : Nat) : Char := base64Chars.getD n 'A'

/-- Sextet value of an alphabet character. -/
def sextetVal (c : Char) : Nat := base64Chars.findIdx (fun x => x == c)

/-- Standard base64 encoding of a byte list (each byte `< 256`). -/
def base64Encode : List Nat → JStr
  | [] => []
  | [b1] => [sextetChar (b1 / 4), sextetChar (b1 % 4 * 16), '=', '=']
  | [b1, b2] =>
    [sextetChar (b1 / 4), sextetChar (b1 % 4 * 16 + b2 / 16), sextetChar (b2 % 16 * 4), '=']
  | b1 :: b2 :: b3 :: rest =>
    sextetChar (b1 / 4) :: sextetChar (b1 % 4 * 16 + b2 / 16) ::
      sextetChar (b2 % 16 * 4 + b3 / 64) :: sextetChar (b3 % 64) :: base64Encode rest

/-- Standard base64 decoding. -/
def base64Decode : JStr → List Nat
  | c1 :: c2 :: c3 :: c4 :: rest =>
    if c3 = '=' then [sextetVal c1 * 4 + sextetVal c2 / 16]
    else if c4 = '=' then
      [sextetVal c1 * 4 + sextetVal c2 / 16, sextetVal c2 % 16 * 16 + sextetVal c3 / 4]
    else
      (sextetVal c1 * 4 + sextetVal c2 / 16) :: (sextetVal c2 % 16 * 16 + sextetVal c3 / 4) ::
        (sextetVal c3 % 4 * 64 + sextetVal c4) :: base64Decode rest
  | _ => []

/-- Modelled from the platform contract of `FileReader.readAsDataURL`:
the reader resolves with `data:<declared type>;base64,<base64 bytes>`. -/
def readAsDataURL (file : File) : JStr :=
  "data:".data ++ file.type ++ ";base64,".data ++ base64Encode file.bytes

/-- `fileToBase64` from `multimodal-utils.ts`: `result.split(",")[1]`.
Index 1 of the split; `none` models JavaScript `undefined`. -/
def fileToBase64 (file : File) : Option JStr :=
  (jsSplitChar ',' (readAsDataURL file)).get? 1

/-! ### Classification tables of `multimodal-utils.ts` (S3 variant) -/

def supportedImageTypes : List JStr :=
  ["image/jpeg".data, "image/png".data, "image/gif".data, "image/webp".data]

def supportedCADTypes : List JStr :=
  ["application/acad".data, "image/vnd.dwg".data, "application/dwg".data,
   "image/x-dwg".data, "application/dxf".data, "image/vnd.dxf".data,
   "application/octet-stream".data, "application/x-dwg".data, "image/x-autocad".data]

def supportedPythonTypes : List JStr :=
  ["text/x-python".data, "application/x-python-code".data]

def supportedFileTypes : List JStr :=
  supportedImageTypes ++ ["application/pdf".data] ++ supportedCADTypes
    ++ supportedPythonTypes ++ ["text/plain".data]

/-- The legacy (base64-only) variant's table: no Python types. -/
def supportedFileTypesLegacy : List JStr :=
  supportedImageTypes ++ ["application/pdf".data] ++ supportedCADTypes ++ ["text/plain".data]

/-- `isCADFile` from `multimodal-utils.ts`: lowercased name ends in `.dwg` or `.dxf`. -/
def isCADFile (file : File) : Bool :=
  jsEndsWith (jsToLower file.name) ".dwg".data || jsEndsWith (jsToLower file.name) ".dxf".data

/-- `isPythonFile` from `multimodal-utils.ts` (S3 variant): lowercased name ends in `.py`. -/
def isPythonFile (file : File) : Bool :=
  jsEndsWith (jsToLower file.name) ".py".data

/-- `isSupported` of the S3 variant of `fileToContentBlock`. -/
def isSupported (file : File) : Bool :=
  supportedFileTypes.contains file.type || isCADFile file || isPythonFile file

/-- `isSupported` of the legacy variant. -/
def isSupportedLegacy (file : File) : Bool :=
  supportedFileTypesLegacy.contains file.type || isCADFile file

/-! ### The block builder -/

/-- One user-visible toast, tagged by the call site that produced it. -/
inductive Notice
  | errUnsupportedType (t : JStr)
  | infoUploading (name : JStr)
  | successUploaded (name : JStr)
  | errUploadFailed (name : JStr)
  | errUnexpectedType (t : JStr)
  | errInvalidFiles (names : List JStr)
  | errDuplicateFiles (names : List JStr)
  | errBatch
deriving DecidableEq

/-- `toast.error` call sites (as opposed to `toast.info` / `toast.success`). -/
def Notice.isError : Notice → Bool
  | .infoUploading _ => false
  | .successUploaded _ => false
  | _ => true

/-- Outcome of the asynchronous environment for one file: whether the
`FileReader` succeeds, and the outcome of `uploadFileToS3`. -/
structure FileEnv where
  readOk : Bool
  uploadResult : Except Unit S3UploadResult

/-- The CAD/Python arm of the S3 variant of `fileToContentBlock`
(lines with `await uploadFileToS3(file)`): toast, upload, and either an S3
block from the result or a rejection. -/
def cadUploadBranch (file : File) (env : FileEnv) : Except Unit ContentBlock × List Notice :=
  match env.uploadResult with
  | .ok r =>
    (.ok (.fileS3 r.s3_key r.s3_bucket r.s3_region r.metadata),
     [.infoUploading file.name, .successUploaded file.name])
  | .error _ => (.error (), [.infoUploading file.name, .errUploadFailed file.name])

/-- `fileToContentBlock` from `multimodal-utils.ts`, S3-upload variant.
Rejections are modelled as `Except.error ()` (callers only catch, never inspect).
The returned list holds the toasts emitted by this call. -/
def fileToContentBlock (file : File) (env : FileEnv) : Except Unit ContentBlock × List Notice :=
  if !isSupported file then (.error (), [.errUnsupportedType file.type])
  else if !env.readOk then (.error (), [])
  else
    let data := fileToBase64 file
    if supportedImageTypes.contains file.type then
      (.ok (.image file.type data file.name), [])
    else if file.type == "application/pdf".data then
      (.ok (.fileB64 "application/pdf".data data file.name), [])
    else if supportedCADTypes.contains file.type || isCADFile file
        || supportedPythonTypes.contains file.type || isPythonFile file then
      cadUploadBranch file env
    else
      (.error (), [.errUnexpectedType file.type])

/-- `fileToContentBlock` from `multimodal-utils.ts`, legacy base64-only variant,
with its CAD media-type fallback for empty or `text/plain` declared types. -/
def fileToContentBlockLegacy (file : File) (readOk : Bool) :
    Except Unit ContentBlock × List Notice :=
  if !isSupportedLegacy file then (.error (), [.errUnsupportedType file.type])
  else if !readOk then (.error (), [])
  else
    let data := fileToBase64 file
    if supportedImageTypes.contains file.type then
      (.ok (.image file.type data file.name), [])
    else if file.type == "application/pdf".data then
      (.ok (.fileB64 "application/pdf".data data file.name), [])
    else if supportedCADTypes.contains file.type || isCADFile file then
      let mimeType :=
        if file.type.isEmpty || file.type == "text/plain".data then
          if jsEndsWith (jsToLower file.name) ".dwg".data then "application/acad".data
          else if jsEndsWith (jsToLower file.name) ".dxf".data then "application/dxf".data
          else file.type
        else file.type
      (.ok (.fileB64 mimeType data file.name), [])
    else
      (.error (), [.errUnexpectedType file.type])

/-! ### Runtime type guards -/

/-- The loosely-typed object a guard inspects: each field is `none` when absent
(JavaScript `undefined`); only the fields the guards read are modelled. -/
structure RawBlock where
  type : Option JStr
  source_type : Option JStr
  mime_type : Option JStr
  s3_key : Option JStr
  s3_bucket : Option JStr
  s3_region : Option JStr
deriving DecidableEq

/-- Erasure of a typed block to the shape the runtime guards see. -/
def toRaw : ContentBlock → RawBlock
  | .image mt _ _ => ⟨some "image".data, some "base64".data, some mt, none, none, none⟩
  | .fileB64 mt _ _ => ⟨some "file".data, some "base64".data, some mt, none, none, none⟩
  | .fileS3 k b r _ => ⟨some "file".data, some "s3".data, none, some k, some b, some r⟩

/-- `isContentBlock` from `multimodal-utils.ts` (S3 variant). -/
def isContentBlock (block : RawBlock) : Bool :=
  if block.type.isNone then false
  else if block.type == some "file".data && block.source_type == some "s3".data
      && block.s3_key.isSome && block.s3_bucket.isSome && block.s3_region.isSome then
    true
  else if block.type == some "file".data && block.source_type == some "base64".data
      && block.mime_type.isSome then
    let m := block.mime_type.getD []
    jsStartsWith m "image/".data || m == "application/pdf".data
      || m == "application/acad".data || m == "application/dwg".data
      || m == "application/dxf".data || m == "image/vnd.dwg".data
      || m == "image/vnd.dxf".data || m == "image/x-dwg".data
      || m == "text/x-python".data || m == "application/x-python-code".data
  else if block.type == some "image".data && block.source_type == some "base64".data
      && (match block.mime_type with
          | some m => jsStartsWith m "image/".data
          | none => false) then
    true
  else false

/-- `isBase64ContentBlock` from `multimodal-utils.ts` (S3 variant, compatibility guard). -/
def isBase64ContentBlock (block : RawBlock) : Bool :=
  isContentBlock block && block.source_type == some "base64".data

/-! ### The upload route handler (`/api/upload`) -/

/-- Server-side environment of one request: resolved configuration, clock values
(`month` is the already `+1`-adjusted calendar month), the freshly generated
UUID, and whether the object-store write succeeds. -/
structure ServerEnv where
  year : Nat
  month : Nat
  uuid : JStr
  isoNow : JStr
  region : JStr
  bucket : JStr
  storeOk : Bool
  storeErrMsg : JStr
deriving DecidableEq

/-- A JSON response body: either the structured success result or `{ error }`. -/
inductive RespBody
  | ok (result : S3UploadResult)
  | err (msg : JStr)
deriving DecidableEq

/-- An HTTP response of the route handler. -/
structure Response where
  status : Nat
  body : RespBody
deriving DecidableEq

/-- `file.name.split('.').pop()?.toLowerCase() || ''` from the route handler. -/
def extOf (name : JStr) : JStr := jsToLower (jsPop (jsSplitChar '.' name))

/-- `String(n).padStart(2, '0')`. -/
def pad2 (s : JStr) : JStr := List.replicate (2 - s.length) '0' ++ s

/-- The store key built by the route handler:
`user-uploads/drawings/${year}/${month}/${uniqueId}.${fileExtension}`. -/
def mkS3Key (env : ServerEnv) (fileName : JStr) : JStr :=
  "user-uploads/drawings/".data ++ Nat.toDigits 10 env.year ++ "/".data
    ++ pad2 (Nat.toDigits 10 env.month) ++ "/".data ++ env.uuid ++ ".".data ++ extOf fileName

/-- `POST` from the upload route: validation, key generation, store write,
structured result.  `filePart` is `formData.get('file')`. -/
def POST (filePart : Option File) (env : ServerEnv) : Response :=
  match filePart with
  | none => ⟨400, .err "No file provided".data⟩
  | some file =>
    if !(jsEndsWith (jsToLower file.name) ".dwg".data
        || jsEndsWith (jsToLower file.name) ".dxf".data) then
      ⟨400, .err "Only .dwg and .dxf files are supported".data⟩
    else if env.storeOk then
      ⟨200, .ok
        { s3_key := mkS3Key env file.name
          s3_bucket := env.bucket
          s3_region := env.region
          metadata :=
            { filename := env.uuid ++ ".".data ++ extOf file.name
              original_name := file.name
              size := file.size
              mime_type :=
                if file.type.isEmpty then "application/octet-stream".data else file.type
              uploaded_at := env.isoNow } }⟩
    else
      ⟨500, .err ("Upload failed: ".data ++ env.storeErrMsg)⟩

/-- `GET` from the upload route. -/
def GETRoute : Response := ⟨405, .err "Method not allowed".data⟩

/-- Method dispatch of the route module.  `POST` and `GET` handlers come from the
source; for every other method the framework answers 405 itself (modelled from
the spec's external-interface section: "405 for any method other than POST"). -/
def handleRequest (method : JStr) (filePart : Option File) (env : ServerEnv) : Response :=
  if method == "POST".data then POST filePart env
  else if method == "GET".data then GETRoute
  else ⟨405, .err "Method Not Allowed".data⟩

/-- `uploadFileToS3` from `s3-upload.ts`, given the response of its one `fetch`:
non-ok responses (status outside 200..299) and error bodies throw; otherwise the
parsed `S3UploadResult` is returned. -/
def uploadFileToS3 (resp : Response) : Except Unit S3UploadResult :=
  if 200 ≤ resp.status ∧ resp.status < 300 then
    match resp.body with
    | .ok r => .ok r
    | .err _ => .error ()
  else .error ()

/-! ### The attachment collection hook (`useFileUpload`) -/

/-- `SUPPORTED_FILE_TYPES` from the hook module. -/
def SUPPORTED_FILE_TYPES : List JStr :=
  ["image/jpeg".data, "image/png".data, "image/gif".data, "image/webp".data,
   "application/pdf".data, "application/acad".data, "image/vnd.dwg".data,
   "application/dwg".data, "image/x-dwg".data, "application/x-dwg".data,
   "image/x-autocad".data, "application/octet-stream".data, "application/dxf".data,
   "image/vnd.dxf".data, "text/plain".data]

/-- `isCADFile` from the hook: last `.`-segment of the lowercased name is
`dwg` or `dxf`. -/
def hookIsCADFile (file : File) : Bool :=
  let ext := jsPop (jsSplitChar '.' (jsToLower file.name))
  ext == "dwg".data || ext == "dxf".data

/-- `isValidFile` from the hook. -/
def isValidFile (file : File) : Bool :=
  if hookIsCADFile file then true
  else if SUPPORTED_FILE_TYPES.contains file.type then true
  else if file.type == "application/octet-stream".data then
    let ext := jsToLower (jsPop (jsSplitChar '.' file.name))
    ext == "dwg".data || ext == "dxf".data
  else false

/-- `isDuplicate` from the hook. -/
def isDuplicate (file : File) (blocks : List ContentBlock) : Bool :=
  if file.type == "application/pdf".data then
    blocks.any fun b =>
      blockKind b == "file".data && blockMimeType b == some "application/pdf".data
        && blockMetaFilename b == some file.name
  else if hookIsCADFile file then
    blocks.any fun b => blockKind b == "file".data && blockMetaFilename b == some file.name
  else if isValidFile file then
    blocks.any fun b =>
      (blockKind b == "image".data && blockMetaName b == some file.name)
        || (blockKind b == "file".data && blockMetaFilename b == some file.name)
  else false

/-- `isDuplicatePaste` from `handlePaste` (no CAD-specific arm). -/
def isDuplicatePaste (file : File) (blocks : List ContentBlock) : Bool :=
  if file.type == "application/pdf".data then
    blocks.any fun b =>
      blockKind b == "file".data && blockMimeType b == some "application/pdf".data
        && blockMetaFilename b == some file.name
  else if isValidFile file then
    blocks.any fun b =>
      (blockKind b == "image".data && blockMetaName b == some file.name)
        || (blockKind b == "file".data && blockMetaFilename b == some file.name)
  else false

/-- `Promise.all` over build outcomes: all blocks in order, or a rejection. -/
def allOk : List (Except Unit ContentBlock) → Option (List ContentBlock)
  | [] => some []
  | .ok b :: rest => (allOk rest).map fun bs => b :: bs
  | .error _ :: _ => none

/-- The shared batch logic of `handleFileUpload`, `handleWindowDrop` and
`handlePaste`: partition into invalid / duplicate / unique, one aggregated toast
for each non-empty rejected set, build all unique files, and append all blocks
only when every build succeeded (otherwise one batch error toast and no change).
The duplicate predicate is a parameter because `handlePaste` uses its own. -/
def processFiles (dup : File → List ContentBlock → Bool) (prev : List ContentBlock)
    (files : List (File × FileEnv)) : List ContentBlock × List Notice :=
  let validFiles := files.filter fun fe => isValidFile fe.1
  let invalidFiles := files.filter fun fe => !isValidFile fe.1
  let duplicateFiles := validFiles.filter fun fe => dup fe.1 prev
  let uniqueFiles := validFiles.filter fun fe => !dup fe.1 prev
  let notices0 :=
    (if invalidFiles.isEmpty then []
     else [Notice.errInvalidFiles (invalidFiles.map fun fe => fe.1.name)])
      ++ (if duplicateFiles.isEmpty then []
          else [Notice.errDuplicateFiles (duplicateFiles.map fun fe => fe.1.name)])
  if uniqueFiles.isEmpty then (prev, notices0)
  else
    let results := uniqueFiles.map fun fe => fileToContentBlock fe.1 fe.2
    let perFile := (results.map Prod.snd).flatten
    match allOk (results.map Prod.fst) with
    | some newBlocks => (prev ++ newBlocks, notices0 ++ perFile)
    | none => (prev, notices0 ++ perFile ++ [Notice.errBatch])

/-- `handleFileUpload` (file-select batch). -/
def handleFileUpload : List ContentBlock → List (File × FileEnv) →
    List ContentBlock × List Notice :=
  processFiles isDuplicate

/-- `handleWindowDrop` (drop batch). -/
def handleWindowDrop : List ContentBlock → List (File × FileEnv) →
    List ContentBlock × List Notice :=
  processFiles isDuplicate

/-- `handlePaste` (paste batch). -/
def handlePaste : List ContentBlock → List (File × FileEnv) →
    List ContentBlock × List Notice :=
  processFiles isDuplicatePaste

/-- `removeBlock` from the hook: `prev.filter((_, i) => i !== idx)`. -/
def removeBlock (blocks : List ContentBlock) (idx : Nat) : List ContentBlock :=
  ((blocks.enum).filter fun p => p.1 != idx).map Prod.snd

/-- `resetBlocks` from the hook. -/
def resetBlocks : List ContentBlock := []

/-! ### Concrete vectors used by counterexamples and witnesses -/

/-- A sample server environment: July 2025, a fixed fresh UUID, store write succeeds. -/
def sampleServerEnv : ServerEnv :=
  { year := 2025, month := 7, uuid := "11111111-aaaa-4bbb-8ccc-222222222222".data,
    isoNow := "2025-07-01T00:00:00.000Z".data, region := "eu-north-1".data,
    bucket := "keystone-user-content-files".data, storeOk := true, storeErrMsg := [] }

/-- Same clock as `sampleServerEnv` with a different freshly generated UUID. -/
def sampleServerEnv2 : ServerEnv :=
  { sampleServerEnv with uuid := "22222222-aaaa-4bbb-8ccc-333333333333".data }

/-- A CAD file named `a.dwg`. -/
def fileA : File :=
  { name := "a.dwg".data, type := "application/acad".data, size := 3, bytes := [1, 2, 3] }

/-- A CAD file named `b.dwg`. -/
def fileB : File :=
  { name := "b.dwg".data, type := "application/acad".data, size := 1, bytes := [5] }

/-- A CAD file named `c.dwg`. -/
def fileC : File :=
  { name := "c.dwg".data, type := "application/acad".data, size := 1, bytes := [6] }

/-- A sample successful upload result (used where only success/failure matters). -/
def sampleUpload : S3UploadResult :=
  { s3_key := "k".data, s3_bucket := "b".data, s3_region := "r".data,
    metadata := { filename := "u1.dwg".data, original_name := "a.dwg".data, size := 3,
                  mime_type := "application/acad".data, uploaded_at := "t".data } }

/-- Per-file environment whose upload succeeds. -/
def envUploadOk : FileEnv := { readOk := true, uploadResult := .ok sampleUpload }

/-- Per-file environment whose upload fails. -/
def envUploadFail : FileEnv := { readOk := true, uploadResult := .error () }

/-- Per-file environment routed end-to-end through the real endpoint for `fileA`. -/
def envA : FileEnv :=
  { readOk := true,
    uploadResult := uploadFileToS3 (handleRequest "POST".data (some fileA) sampleServerEnv) }

/-- The collection after one select-batch containing only `fileA`. -/
def stateAfterFirstAdd : List ContentBlock := (processFiles isDuplicate [] [(fileA, envA)]).1

/-- A three-file batch whose second upload fails. -/
def batchOneFailing : List (File × FileEnv) :=
  [(fileA, envUploadOk), (fileB, envUploadFail), (fileC, envUploadOk)]

/-- A file with a CAD extension but an image declared media type. -/
def fileDwgPng : File :=
  { name := "a.dwg".data, type := "image/png".data, size := 3, bytes := [1, 2, 3] }

/-- A DXF file whose declared media type is `text/plain`. -/
def fileDxfPlain : File :=
  { name := "a.dxf".data, type := "text/plain".data, size := 1, bytes := [7] }

/-- End-to-end environment for `fileDxfPlain` through the real endpoint. -/
def envDxfPlain : FileEnv :=
  { readOk := true,
    uploadResult :=
      uploadFileToS3 (handleRequest "POST".data (some fileDxfPlain) sampleServerEnv) }

/-- A Python file. -/
def filePy : File :=
  { name := "script.py".data, type := "text/x-python".data, size := 1, bytes := [1] }

/-- The endpoint's response body for `fileA` under `sampleServerEnv`. -/
def sampleResult1 : S3UploadResult :=
  { s3_key := "user-uploads/drawings/2025/07/11111111-aaaa-4bbb-8ccc-222222222222.dwg".data,
    s3_bucket := "keystone-user-content-files".data, s3_region := "eu-north-1".data,
    metadata := { filename := "11111111-aaaa-4bbb-8ccc-222222222222.dwg".data,
                  original_name := "a.dwg".data, size := 3,
                  mime_type := "application/acad".data,
                  uploaded_at := "2025-07-01T00:00:00.000Z".data } }

/-- The endpoint's response body for `fileA` under `sampleServerEnv2`. -/
def sampleResult2 : S3UploadResult :=
  { s3_key := "user-uploads/drawings/2025/07/22222222-aaaa-4bbb-8ccc-333333333333.dwg".data,
    s3_bucket := "keystone-user-content-files".data, s3_region := "eu-north-1".data,
    metadata := { filename := "22222222-aaaa-4bbb-8ccc-333333333333.dwg".data,
                  original_name := "a.dwg".data, size := 3,
                  mime_type := "application/acad".data,
                  uploaded_at := "2025-07-01T00:00:00.000Z".data } }

/-! ## Helper lemmas -/

theorem jsEndsWith_iff {s t : JStr} : jsEndsWith s t = true ↔ ∃ u, s = u ++ t := by
  unfold jsEndsWith
  rw [List.isSuffixOf_iff_suffix]
  constructor
  · rintro ⟨u, hu⟩
    exact ⟨u, hu.symm⟩
  · rintro ⟨u, hu⟩
    exact ⟨u, hu.symm⟩

theorem getLast?_of_jsEndsWith {s t : JStr} (h : jsEndsWith s t = true) (ht : t ≠ []) :
    s.getLast? = t.getLast? := by
  obtain ⟨u, rfl⟩ := jsEndsWith_iff.mp h
  rw [List.getLast?_append]
  cases hc : t.getLast? with
  | none => exact absurd (List.getLast?_eq_none_iff.mp hc) ht
  | some c => rfl

theorem not_endsWith_of_endsWith_ne {s t₁ t₂ : JStr} (h : jsEndsWith s t₁ = true)
    (h₁ : t₁ ≠ []) (h₂ : t₂ ≠ []) (hne : t₁.getLast? ≠ t₂.getLast?) :
    jsEndsWith s t₂ = false := by
  by_contra hc
  rw [Bool.not_eq_false] at hc
  exact hne ((getLast?_of_jsEndsWith h h₁).symm.trans (getLast?_of_jsEndsWith hc h₂))

/-! ## C5: the server rejects every Python file the client tries to upload -/

/-- C5: in the S3-upload pipeline, a CodeLike (Python) file can never complete the
end-to-end upload path: for every file whose lowercased name ends in `.py`, the
endpoint answers 400, so `uploadFileToS3` always throws.  This contradicts the
claim that for the CodeLike category some file can succeed against the endpoint. -/
theorem py_upload_always_rejected (file : File) (env : ServerEnv)
    (h : jsEndsWith (jsToLower file.name) ".py".data = true) :
    (POST (some file) env).status = 400 ∧
      uploadFileToS3 (POST (some file) env) = .error () := by
  have hdwg : jsEndsWith (jsToLower file.name) ".dwg".data = false :=
    not_endsWith_of_endsWith_ne h (by decide) (by decide) (by decide)
  have hdxf : jsEndsWith (jsToLower file.name) ".dxf".data = false :=
    not_endsWith_of_endsWith_ne h (by decide) (by decide) (by decide)
  constructor
  · simp [POST, hdwg, hdxf]
  · simp [POST, hdwg, hdxf, uploadFileToS3]

/-- Witness for C5 at the concrete Python file `script.py`. -/
theorem py_upload_always_rejected_witness :
    jsEndsWith (jsToLower filePy.name) ".py".data = true ∧
      (POST (some filePy) sampleServerEnv).status = 400 ∧
      uploadFileToS3 (POST (some filePy) sampleServerEnv) = .error () :=
  ⟨by decide, py_upload_always_rejected filePy sampleServerEnv (by decide)⟩

/-! ## C8: error contract of the upload endpoint -/

/-- C8: the endpoint returns 400 with an error body when the request has no file
part, 400 when the name does not end (case-insensitively) in `.dwg` or `.dxf`,
500 with an error message when the store write fails, 405 for any method other
than POST, and never returns a structured success result on a non-200 status. -/
theorem upload_endpoint_error_contract :
    (∀ env, (POST none env).status = 400 ∧ ∃ m, (POST none env).body = .err m) ∧
    (∀ file env, jsEndsWith (jsToLower file.name) ".dwg".data = false →
      jsEndsWith (jsToLower file.name) ".dxf".data = false →
      (POST (some file) env).status = 400 ∧ ∃ m, (POST (some file) env).body = .err m) ∧
    (∀ file env, env.storeOk = false →
      (jsEndsWith (jsToLower file.name) ".dwg".data = true ∨
        jsEndsWith (jsToLower file.name) ".dxf".data = true) →
      (POST (some file) env).status = 500 ∧ ∃ m, (POST (some file) env).body = .err m) ∧
    (∀ method filePart env, method ≠ "POST".data →
      (handleRequest method filePart env).status = 405) ∧
    (∀ method filePart env, (handleRequest method filePart env).status ≠ 200 →
      ∃ m, (handleRequest method filePart env).body = .err m) := by
  refine ⟨?_, ?_, ?_, ?_, ?_⟩
  · intro env
    exact ⟨rfl, _, rfl⟩
  · intro file env h1 h2
    constructor
    · simp [POST, h1, h2]
    · exact ⟨"Only .dwg and .dxf files are supported".data, by simp [POST, h1, h2]⟩
  · intro file env hst hext
    rcases hext with hx | hx
    · constructor
      · simp [POST, hx, hst]
      · exact ⟨"Upload failed: ".data ++ env.storeErrMsg, by simp [POST, hx, hst]⟩
    · constructor
      · simp [POST, hx, hst]
      · exact ⟨"Upload failed: ".data ++ env.storeErrMsg, by simp [POST, hx, hst]⟩
  · intro method filePart env hm
    have hb : (method == "POST".data) = false := by
      simpa using hm
    by_cases hg : (method == "GET".data) = true
    · simp [handleRequest, hb, hg, GETRoute]
    · simp at hg
      simp [handleRequest, hb, hg, GETRoute]
  · intro method filePart env hst
    by_cases hp : (method == "POST".data) = true
    · simp only [handleRequest, hp, if_true] at hst ⊢
      rcases filePart with _ | file
      · exact ⟨_, rfl⟩
      · simp only [POST] at hst ⊢
        by_cases hv : (!(jsEndsWith (jsToLower file.name) ".dwg".data
            || jsEndsWith (jsToLower file.name) ".dxf".data)) = true
        · simp only [hv, if_true]
          exact ⟨_, rfl⟩
        · rw [Bool.not_eq_true] at hv
          simp only [hv, Bool.false_eq_true, if_false] at hst ⊢
          by_cases hok : env.storeOk = true
          · simp [hok] at hst
          · rw [Bool.not_eq_true] at hok
            simp only [hok, Bool.false_eq_true, if_false]
            exact ⟨_, rfl⟩
    · rw [Bool.not_eq_true] at hp
      simp only [handleRequest, hp, Bool.false_eq_true, if_false]
      by_cases hg : (method == "GET".data) = true
      · simp only [hg, if_true]
        exact ⟨_, rfl⟩
      · rw [Bool.not_eq_true] at hg
        simp only [hg, Bool.false_eq_true, if_false]
        exact ⟨_, rfl⟩

/-- Witness for C8 at concrete requests. -/
theorem upload_endpoint_error_contract_witness :
    ((POST none sampleServerEnv).status = 400 ∧
      ∃ m, (POST none sampleServerEnv).body = .err m) ∧
    ((POST (some filePy) sampleServerEnv).status = 400 ∧
      ∃ m, (POST (some filePy) sampleServerEnv).body = .err m) ∧
    (handleRequest "PUT".data none sampleServerEnv).status = 405 :=
  ⟨upload_endpoint_error_contract.1 sampleServerEnv,
   upload_endpoint_error_contract.2.1 filePy sampleServerEnv (by decide) (by decide),
   upload_endpoint_error_contract.2.2.2.1 "PUT".data none sampleServerEnv (by decide)⟩

/-! ## C9: removal of one element -/

theorem filterIdx_aux {α : Type} (l : List α) : ∀ (n idx : Nat),
    ((List.enumFrom n l).filter fun p => p.1 != idx).map Prod.snd =
      if idx < n then l else l.take (idx - n) ++ l.drop (idx - n + 1) := by
  induction l with
  | nil =>
    intro n idx
    simp
  | cons a l ih =>
    intro n idx
    rw [List.enumFrom_cons, List.filter_cons]
    by_cases h : n = idx
    · subst h
      simp only [bne_self_eq_false, Bool.false_eq_true, if_false, ih]
      have h1 : ¬ n < n := lt_irrefl n
      have h2 : n < n + 1 := Nat.lt_succ_self n
      simp [h1, h2]
    · have hb : (n != idx) = true := bne_iff_ne.mpr h
      simp only [hb, if_true, List.map_cons, ih]
      by_cases hlt : idx < n
      · have hlt' : idx < n + 1 := Nat.lt_succ_of_lt hlt
        simp [hlt, hlt']
      · have hgt : n < idx := lt_of_le_of_ne (Nat.le_of_not_lt hlt) h
        have hlt' : ¬ idx < n + 1 := by omega
        have he : idx - n = (idx - (n + 1)) + 1 := by omega
        simp only [hlt, hlt', if_false, he, List.take_succ_cons, List.drop_succ_cons,
          List.cons_append]

theorem removeBlock_eq (blocks : List ContentBlock) (idx : Nat) :
    removeBlock blocks idx = blocks.take idx ++ blocks.drop (idx + 1) := by
  unfold removeBlock
  rw [List.enum, filterIdx_aux]
  simp

/-- C9: `remove(index)` on a collection of size `N` with `0 ≤ index < N` yields the
other `N - 1` elements in their original relative order (the prefix before the
index followed by the suffix after it). -/
theorem remove_removes_exactly_one (blocks : List ContentBlock) (idx : Nat)
    (h : idx < blocks.length) :
    (removeBlock blocks idx).length = blocks.length - 1 ∧
      removeBlock blocks idx = blocks.take idx ++ blocks.drop (idx + 1) := by
  refine ⟨?_, removeBlock_eq blocks idx⟩
  rw [removeBlock_eq, List.length_append, List.length_take, List.length_drop]
  omega

/-- Witness for C9 on a concrete three-element collection. -/
theorem remove_removes_exactly_one_witness :
    (1 : Nat) < ([ContentBlock.image "m".data none "x".data,
        ContentBlock.image "m".data none "y".data,
        ContentBlock.image "m".data none "z".data] : List ContentBlock).length ∧
      (removeBlock [ContentBlock.image "m".data none "x".data,
          ContentBlock.image "m".data none "y".data,
          ContentBlock.image "m".data none "z".data] 1).length = 2 ∧
      removeBlock [ContentBlock.image "m".data none "x".data,
          ContentBlock.image "m".data none "y".data,
          ContentBlock.image "m".data none "z".data] 1
        = [ContentBlock.image "m".data none "x".data,
           ContentBlock.image "m".data none "z".data] := by
  refine ⟨by decide, ?_⟩
  have h := remove_removes_exactly_one
    [ContentBlock.image "m".data none "x".data,
     ContentBlock.image "m".data none "y".data,
     ContentBlock.image "m".data none "z".data] 1 (by decide)
  exact ⟨h.1, by decide⟩

/-! ## C3: branch order of the classifier -/

/-- C3 counterexample: the file `a.dwg` declared as `image/png` is NOT routed to
the CAD branch — the builder returns an inline image block (and emits no upload
toast), because the supported-image-type check comes first.  This refutes the
claim that a CAD extension wins for every declared media type including members
of the image set. -/
theorem cad_extension_image_type_counterexample :
    (fileToContentBlock fileDwgPng envUploadOk).1
        = .ok (.image "image/png".data (some "AQID".data) "a.dwg".data)
      ∧ (fileToContentBlock fileDwgPng envUploadOk).2 = [] := by
  constructor <;> decide

/-- C3 amended: for a file whose lowercased name ends in `.dwg` or `.dxf`, the
build follows the CAD upload branch for every declared media type that is not in
the supported image set and is not `application/pdf` (this includes the empty
string, `text/plain`, and every CAD media type). -/
theorem cad_extension_routes_to_upload (file : File) (env : FileEnv)
    (hcad : isCADFile file = true)
    (himg : supportedImageTypes.contains file.type = false)
    (hpdf : file.type ≠ "application/pdf".data)
    (hread : env.readOk = true) :
    fileToContentBlock file env = cadUploadBranch file env := by
  have hsup : isSupported file = true := by
    simp [isSupported, hcad]
  have himgP : file.type ∉ supportedImageTypes := by
    simpa using himg
  simp [fileToContentBlock, hsup, hread, himgP, hpdf, hcad]

/-- Witness for the amended C3 at the concrete file `a.dwg` with a CAD media type. -/
theorem cad_extension_routes_to_upload_witness :
    isCADFile fileA = true ∧ supportedImageTypes.contains fileA.type = false
      ∧ fileA.type ≠ "application/pdf".data ∧ envUploadOk.readOk = true
      ∧ fileToContentBlock fileA envUploadOk = cadUploadBranch fileA envUploadOk :=
  ⟨by decide, by decide, by decide, by decide,
    cad_extension_routes_to_upload fileA envUploadOk (by decide) (by decide) (by decide)
      (by decide)⟩

/-! ## C4: CAD media-type fallback -/

/-- C4 counterexample: in the S3-upload builder, a `.dxf` file declared as
`text/plain` produces a remote block whose metadata media type is `text/plain`
verbatim (the server echoes `file.type`), not `application/dxf` — refuting the
claim that a CADLike block never carries `text/plain`. -/
theorem s3_cad_block_carries_text_plain_counterexample :
    (fileToContentBlock fileDxfPlain envDxfPlain).1
      = .ok (.fileS3
          "user-uploads/drawings/2025/07/11111111-aaaa-4bbb-8ccc-222222222222.dxf".data
          "keystone-user-content-files".data "eu-north-1".data
          { filename := "11111111-aaaa-4bbb-8ccc-222222222222.dxf".data,
            original_name := "a.dxf".data, size := 1,
            mime_type := "text/plain".data,
            uploaded_at := "2025-07-01T00:00:00.000Z".data }) := by
  decide

/-- C4 amended: the fallback holds in the inline (legacy) builder: a CAD-branch
file with declared media type empty or `text/plain` gets `application/acad` when
its lowercased name ends in `.dwg` and `application/dxf` when it ends in `.dxf`.
(The S3-upload builder instead stores the declared type verbatim, with the empty
string replaced by `application/octet-stream`, in the remote block's metadata.) -/
theorem legacy_cad_mime_fallback (file : File)
    (hty : file.type = [] ∨ file.type = "text/plain".data) :
    (jsEndsWith (jsToLower file.name) ".dwg".data = true →
      (fileToContentBlockLegacy file true).1
        = .ok (.fileB64 "application/acad".data (fileToBase64 file) file.name)) ∧
    (jsEndsWith (jsToLower file.name) ".dxf".data = true →
      (fileToContentBlockLegacy file true).1
        = .ok (.fileB64 "application/dxf".data (fileToBase64 file) file.name)) := by
  have himgP : file.type ∉ supportedImageTypes := by
    rcases hty with hty | hty <;> rw [hty] <;> decide
  have hpdf : file.type ≠ "application/pdf".data := by
    rcases hty with hty | hty <;> rw [hty] <;> decide
  have hfb : (file.type.isEmpty || (file.type == "text/plain".data)) = true := by
    rcases hty with hty | hty <;> rw [hty] <;> decide
  constructor
  · intro hdwg
    have hcad : isCADFile file = true := by
      simp [isCADFile, hdwg]
    have hsup : isSupportedLegacy file = true := by
      simp [isSupportedLegacy, hcad]
    simp [fileToContentBlockLegacy, hsup, himgP, hpdf, hcad, hfb, hdwg]
  · intro hdxf
    have hdwg : jsEndsWith (jsToLower file.name) ".dwg".data = false :=
      not_endsWith_of_endsWith_ne hdxf (by decide) (by decide) (by decide)
    have hcad : isCADFile file = true := by
      simp [isCADFile, hdxf]
    have hsup : isSupportedLegacy file = true := by
      simp [isSupportedLegacy, hcad]
    simp [fileToContentBlockLegacy, hsup, himgP, hpdf, hcad, hfb, hdwg, hdxf]

/-- Witness for the amended C4 at the concrete file `a.dxf` declared `text/plain`. -/
theorem legacy_cad_mime_fallback_witness :
    (fileDxfPlain.type = [] ∨ fileDxfPlain.type = "text/plain".data) ∧
      jsEndsWith (jsToLower fileDxfPlain.name) ".dxf".data = true ∧
      (fileToContentBlockLegacy fileDxfPlain true).1
        = .ok (.fileB64 "application/dxf".data (fileToBase64 fileDxfPlain)
            fileDxfPlain.name) :=
  ⟨Or.inr (by decide), by decide,
    (legacy_cad_mime_fallback fileDxfPlain (Or.inr (by decide))).2 (by decide)⟩

/-! ## C10: guard totality over produced blocks -/

/-- C10: every block successfully returned by the S3 variant of
`fileToContentBlock` passes the `isContentBlock` runtime guard, and passes
`isBase64ContentBlock` exactly when its `source_type` is `"base64"`. -/
theorem guard_accepts_produced_blocks (file : File) (env : FileEnv) (b : ContentBlock)
    (L : List Notice) (h : fileToContentBlock file env = (.ok b, L)) :
    isContentBlock (toRaw b) = true ∧
      (isBase64ContentBlock (toRaw b) = true ↔ (toRaw b).source_type = some "base64".data) := by
  simp only [fileToContentBlock] at h
  split at h
  · simp at h
  · split at h
    · simp at h
    · split at h
      · next hcond =>
        have hmem : file.type ∈ supportedImageTypes := by
          simpa using hcond
        simp only [supportedImageTypes, List.mem_cons, List.mem_singleton,
          List.not_mem_nil, or_false] at hmem
        injection h with h1 h2
        injection h1 with hb
        subst hb
        rcases hmem with he | he | he | he <;> rw [he] <;>
          exact ⟨rfl, Iff.intro (fun _ => rfl) (fun _ => rfl)⟩
      · split at h
        · injection h with h1 h2
          injection h1 with hb
          subst hb
          exact ⟨rfl, Iff.intro (fun _ => rfl) (fun _ => rfl)⟩
        · split at h
          · cases hu : env.uploadResult with
            | ok r =>
              simp only [cadUploadBranch, hu] at h
              injection h with h1 h2
              injection h1 with hb
              subst hb
              refine ⟨rfl, Iff.intro (fun hx => ?_) (fun hx => ?_)⟩
              · exact (Bool.false_ne_true hx).elim
              · simp [toRaw] at hx
            | error e =>
              simp only [cadUploadBranch, hu] at h
              simp at h
          · simp at h

/-- Witness for C10: the concrete S3 block produced for `fileA` passes the guard
and is not a base64 block. -/
theorem guard_accepts_produced_blocks_witness :
    fileToContentBlock fileA envUploadOk
        = (.ok (.fileS3 "k".data "b".data "r".data sampleUpload.metadata),
            [.infoUploading "a.dwg".data, .successUploaded "a.dwg".data]) ∧
      isContentBlock (toRaw (.fileS3 "k".data "b".data "r".data sampleUpload.metadata)) = true ∧
      (isBase64ContentBlock (toRaw (.fileS3 "k".data "b".data "r".data
            sampleUpload.metadata)) = true
        ↔ (toRaw (ContentBlock.fileS3 "k".data "b".data "r".data
            sampleUpload.metadata)).source_type = some "base64".data) :=
  ⟨by decide,
    guard_accepts_produced_blocks fileA envUploadOk
      (.fileS3 "k".data "b".data "r".data sampleUpload.metadata)
      [.infoUploading "a.dwg".data, .successUploaded "a.dwg".data] (by decide)⟩

/-! ## C2: duplicate suppression across encodings -/

/-- C2: duplicate suppression fails for remote-reference blocks.  After `a.dwg`
is added once (stored as an S3 block whose `metadata.filename` is the generated
`<uuid>.dwg`, not the original name), a second add of the same file is NOT
detected as a duplicate — `isDuplicate` compares `metadata.filename` with the
original name — so the collection ends with two file blocks for the original
name `a.dwg`, violating the at-most-one-per-original-name invariant. -/
theorem duplicate_detection_misses_s3_blocks :
    stateAfterFirstAdd.length = 1 ∧
      isDuplicate fileA stateAfterFirstAdd = false ∧
      fileOriginalNames (processFiles isDuplicate stateAfterFirstAdd [(fileA, envA)]).1
        = ["a.dwg".data, "a.dwg".data] := by
  refine ⟨by decide, by decide, by decide⟩

/-! ## C1: batch semantics -/

theorem allOk_eq_none {rs : List (Except Unit ContentBlock)} (r : Except Unit ContentBlock)
    (hr : r ∈ rs) (he : r = .error ()) : allOk rs = none := by
  induction rs with
  | nil => cases hr
  | cons x rest ih =>
    rcases List.mem_cons.mp hr with rfl | hmem
    · rw [he]
      rfl
    · cases x with
      | ok b => simp [allOk, ih hmem]
      | error e => rfl

theorem errBatch_not_mem_fileToContentBlock (file : File) (env : FileEnv) :
    Notice.errBatch ∉ (fileToContentBlock file env).2 := by
  simp only [fileToContentBlock]
  split
  · simp
  · split
    · simp
    · split
      · simp
      · split
        · simp
        · split
          · simp only [cadUploadBranch]
            split <;> simp
          · simp

/-- C1 counterexample: a three-file batch whose second upload fails leaves the
collection unchanged (all-or-nothing holds), but TWO failure notices reach the
user — the per-file "failed to upload" toast from the block builder plus the
batch-level "error processing files" toast — refuting the "exactly one failure
notice" part of the claim. -/
theorem batch_failure_two_notices_counterexample :
    (processFiles isDuplicate [] batchOneFailing).1 = [] ∧
      ((processFiles isDuplicate [] batchOneFailing).2.filter Notice.isError).length = 2 := by
  refine ⟨by decide, by decide⟩

/-- C1 amended: for every batch (under any duplicate predicate, covering select,
drop and paste), if any unique file's build fails then no block is added — the
collection is returned unchanged — and exactly one batch-level failure notice
(`errBatch`) is emitted; the block builder may additionally emit one per-file
upload-failure notice for each failing upload. -/
theorem batch_all_or_nothing (dup : File → List ContentBlock → Bool)
    (prev : List ContentBlock) (files : List (File × FileEnv))
    (h : ∃ fe ∈ (files.filter fun fe => isValidFile fe.1).filter fun fe => !dup fe.1 prev,
      (fileToContentBlock fe.1 fe.2).1 = .error ()) :
    (processFiles dup prev files).1 = prev ∧
      (processFiles dup prev files).2.count Notice.errBatch = 1 := by
  obtain ⟨fe, hfe, herr⟩ := h
  have hisE : ((files.filter fun fe => isValidFile fe.1).filter
      fun fe => !dup fe.1 prev).isEmpty = false :=
    List.isEmpty_eq_false.mpr (List.ne_nil_of_mem hfe)
  have hnone : allOk ((((files.filter fun fe => isValidFile fe.1).filter
        fun fe => !dup fe.1 prev).map fun fe => fileToContentBlock fe.1 fe.2).map Prod.fst)
      = none :=
    allOk_eq_none _ (List.mem_map_of_mem Prod.fst (List.mem_map_of_mem _ hfe)) herr
  have hPF : Notice.errBatch ∉ ((((files.filter fun fe => isValidFile fe.1).filter
        fun fe => !dup fe.1 prev).map fun fe => fileToContentBlock fe.1 fe.2).map
        Prod.snd).flatten := by
    rw [List.mem_flatten]
    rintro ⟨l, hl, hmem⟩
    rw [List.mem_map] at hl
    obtain ⟨res, hres, rfl⟩ := hl
    rw [List.mem_map] at hres
    obtain ⟨fe', _, rfl⟩ := hres
    exact errBatch_not_mem_fileToContentBlock fe'.1 fe'.2 hmem
  constructor
  · simp only [processFiles, hisE, Bool.false_eq_true, if_false, hnone]
  · simp only [processFiles, hisE, Bool.false_eq_true, if_false, hnone]
    rw [List.count_append, List.count_append]
    have h0a : Notice.errBatch ∉
        (if (files.filter fun fe => !isValidFile fe.1).isEmpty then []
         else [Notice.errInvalidFiles ((files.filter fun fe => !isValidFile fe.1).map
            fun fe => fe.1.name)]) := by
      split
      · simp
      · simp
    have h0b : Notice.errBatch ∉
        (if ((files.filter fun fe => isValidFile fe.1).filter
            fun fe => dup fe.1 prev).isEmpty then []
         else [Notice.errDuplicateFiles (((files.filter fun fe => isValidFile fe.1).filter
            fun fe => dup fe.1 prev).map fun fe => fe.1.name)]) := by
      split
      · simp
      · simp
    rw [List.count_append]
    rw [List.count_eq_zero.mpr h0a, List.count_eq_zero.mpr h0b, List.count_eq_zero.mpr hPF]
    rfl

/-- Witness for the amended C1 at the concrete three-file batch with one failing
upload. -/
theorem batch_all_or_nothing_witness :
    (∃ fe ∈ (batchOneFailing.filter fun fe => isValidFile fe.1).filter
        fun fe => !isDuplicate fe.1 [], (fileToContentBlock fe.1 fe.2).1 = .error ()) ∧
      (processFiles isDuplicate [] batchOneFailing).1 = [] ∧
      (processFiles isDuplicate [] batchOneFailing).2.count Notice.errBatch = 1 :=
  ⟨by decide, batch_all_or_nothing isDuplicate [] batchOneFailing (by decide)⟩

/-! ## C6: store key shape and uniqueness -/

theorem toDigitsCore_len_lt10 (f n : Nat) (ds : List Char) (hf : 0 < f) (hn : n < 10) :
    (Nat.toDigitsCore 10 f n ds).length = ds.length + 1 := by
  obtain ⟨f', rfl⟩ : ∃ f', f = f' + 1 := ⟨f - 1, by omega⟩
  have h0 : n / 10 = 0 := by omega
  show (if n / 10 = 0 then Nat.digitChar (n % 10) :: ds
      else Nat.toDigitsCore 10 f' (n / 10) (Nat.digitChar (n % 10) :: ds)).length
    = ds.length + 1
  rw [if_pos h0]
  rfl

theorem toDigitsCore_len_lt100 (f n : Nat) (ds : List Char) (hf : 1 < f) (hn1 : 10 ≤ n)
    (hn2 : n < 100) : (Nat.toDigitsCore 10 f n ds).length = ds.length + 2 := by
  obtain ⟨f', rfl⟩ : ∃ f', f = f' + 1 := ⟨f - 1, by omega⟩
  have h0 : ¬ n / 10 = 0 := by omega
  show (if n / 10 = 0 then Nat.digitChar (n % 10) :: ds
      else Nat.toDigitsCore 10 f' (n / 10) (Nat.digitChar (n % 10) :: ds)).length
    = ds.length + 2
  rw [if_neg h0, toDigitsCore_len_lt10 f' (n / 10) _ (by omega) (by omega)]
  rfl

theorem toDigitsCore_len_lt1000 (f n : Nat) (ds : List Char) (hf : 2 < f) (hn1 : 100 ≤ n)
    (hn2 : n < 1000) : (Nat.toDigitsCore 10 f n ds).length = ds.length + 3 := by
  obtain ⟨f', rfl⟩ : ∃ f', f = f' + 1 := ⟨f - 1, by omega⟩
  have h0 : ¬ n / 10 = 0 := by omega
  show (if n / 10 = 0 then Nat.digitChar (n % 10) :: ds
      else Nat.toDigitsCore 10 f' (n / 10) (Nat.digitChar (n % 10) :: ds)).length
    = ds.length + 3
  rw [if_neg h0, toDigitsCore_len_lt100 f' (n / 10) _ (by omega) (by omega) (by omega)]
  rfl

theorem toDigitsCore_len_lt10000 (f n : Nat) (ds : List Char) (hf : 3 < f) (hn1 : 1000 ≤ n)
    (hn2 : n < 10000) : (Nat.toDigitsCore 10 f n ds).length = ds.length + 4 := by
  obtain ⟨f', rfl⟩ : ∃ f', f = f' + 1 := ⟨f - 1, by omega⟩
  have h0 : ¬ n / 10 = 0 := by omega
  show (if n / 10 = 0 then Nat.digitChar (n % 10) :: ds
      else Nat.toDigitsCore 10 f' (n / 10) (Nat.digitChar (n % 10) :: ds)).length
    = ds.length + 4
  rw [if_neg h0, toDigitsCore_len_lt1000 f' (n / 10) _ (by omega) (by omega) (by omega)]
  rfl

/-- A four-digit calendar year prints as four characters. -/
theorem toDigits_year_len (y : Nat) (h1 : 1000 ≤ y) (h2 : y ≤ 9999) :
    (Nat.toDigits 10 y).length = 4 := by
  show (Nat.toDigitsCore 10 (y + 1) y []).length = 4
  rw [toDigitsCore_len_lt10000 (y + 1) y [] (by omega) (by omega) (by omega)]
  rfl

/-- A calendar month (1..12) zero-padded to width two has exactly two characters. -/
theorem pad2_month_len (m : Nat) (h1 : 1 ≤ m) (h2 : m ≤ 12) :
    (pad2 (Nat.toDigits 10 m)).length = 2 := by
  have hlen : (Nat.toDigits 10 m).length = 1 ∨ (Nat.toDigits 10 m).length = 2 := by
    by_cases hm : m < 10
    · left
      show (Nat.toDigitsCore 10 (m + 1) m []).length = 1
      rw [toDigitsCore_len_lt10 (m + 1) m [] (by omega) hm]
      rfl
    · right
      show (Nat.toDigitsCore 10 (m + 1) m []).length = 2
      rw [toDigitsCore_len_lt100 (m + 1) m [] (by omega) (by omega) (by omega)]
      rfl
  unfold pad2
  rw [List.length_append, List.length_replicate]
  omega

/-- Two dot-free fields followed by a dot-separated tail parse unambiguously. -/
theorem append_dot_inj (u1 : JStr) : ∀ (u2 e1 e2 : JStr), '.' ∉ u1 → '.' ∉ u2 →
    u1 ++ '.' :: e1 = u2 ++ '.' :: e2 → u1 = u2 ∧ e1 = e2 := by
  induction u1 with
  | nil =>
    intro u2 e1 e2 h1 h2 h
    cases u2 with
    | nil =>
      simp only [List.nil_append] at h
      injection h with _ ht
      exact ⟨rfl, ht⟩
    | cons c u2 =>
      simp only [List.nil_append, List.cons_append] at h
      injection h with hc _
      have hdot : '.' ∈ c :: u2 := by
        rw [hc]
        exact List.mem_cons_self c u2
      exact absurd hdot h2
  | cons c u1 ih =>
    intro u2 e1 e2 h1 h2 h
    cases u2 with
    | nil =>
      simp only [List.cons_append, List.nil_append] at h
      injection h with hc _
      have hdot : '.' ∈ c :: u1 := by
        rw [← hc]
        exact List.mem_cons_self c u1
      exact absurd hdot h1
    | cons c2 u2 =>
      simp only [List.cons_append] at h
      injection h with hc ht
      obtain ⟨hu, he⟩ := ih u2 e1 e2 (fun hx => h1 (List.mem_cons_of_mem c hx))
        (fun hx => h2 (List.mem_cons_of_mem c2 hx)) ht
      refine ⟨?_, he⟩
      rw [hc, hu]

/-- A 200 response of the endpoint carries the generated store key. -/
theorem POST_ok_inv (file : File) (env : ServerEnv) (r : S3UploadResult)
    (h : POST (some file) env = ⟨200, .ok r⟩) :
    r.s3_key = mkS3Key env file.name := by
  simp only [POST] at h
  split at h
  · simp at h
  · split at h
    · simp only [Response.mk.injEq, RespBody.ok.injEq] at h
      obtain ⟨-, hr⟩ := h
      rw [← hr]
    · simp at h

/-- C6: every accepted upload's store key has exactly the shape
`user-uploads/drawings/<4-digit-year>/<2-digit-month>/<uuid>.<lowercased
original extension>`, and any two accepted uploads — whatever their clocks
within the calendar bounds, and even for identical file names and bytes — have
different store keys whenever their freshly generated (dot-free) UUIDs differ,
so no existing object is ever overwritten. -/
theorem store_key_shape_and_uniqueness (f1 : File) (env1 : ServerEnv) (r1 : S3UploadResult)
    (h1 : POST (some f1) env1 = ⟨200, .ok r1⟩)
    (hy1 : 1000 ≤ env1.year) (hy2 : env1.year ≤ 9999)
    (hm1 : 1 ≤ env1.month) (hm2 : env1.month ≤ 12) :
    (r1.s3_key
        = "user-uploads/drawings/".data ++ Nat.toDigits 10 env1.year ++ "/".data
          ++ pad2 (Nat.toDigits 10 env1.month) ++ "/".data ++ env1.uuid ++ ".".data
          ++ extOf f1.name
      ∧ (Nat.toDigits 10 env1.year).length = 4
      ∧ (pad2 (Nat.toDigits 10 env1.month)).length = 2) ∧
    (∀ f2 env2 r2, POST (some f2) env2 = ⟨200, .ok r2⟩ →
      1000 ≤ env2.year → env2.year ≤ 9999 → 1 ≤ env2.month → env2.month ≤ 12 →
      env2.uuid ≠ env1.uuid → '.' ∉ env1.uuid → '.' ∉ env2.uuid →
      r2.s3_key ≠ r1.s3_key) := by
  have hk1 : r1.s3_key = mkS3Key env1 f1.name := POST_ok_inv f1 env1 r1 h1
  refine ⟨⟨hk1, toDigits_year_len env1.year hy1 hy2, pad2_month_len env1.month hm1 hm2⟩, ?_⟩
  intro f2 env2 r2 h2 hy1' hy2' hm1' hm2' hne hd1 hd2 hkey
  have hk2 : r2.s3_key = mkS3Key env2 f2.name := POST_ok_inv f2 env2 r2 h2
  rw [hk1, hk2] at hkey
  unfold mkS3Key at hkey
  simp only [List.append_assoc, List.singleton_append] at hkey
  replace hkey := List.append_cancel_left hkey
  obtain ⟨-, hkey⟩ := List.append_inj hkey (by
    rw [toDigits_year_len env2.year hy1' hy2', toDigits_year_len env1.year hy1 hy2])
  injection hkey with hx1 hkey
  obtain ⟨-, hkey⟩ := List.append_inj hkey (by
    rw [pad2_month_len env2.month hm1' hm2', pad2_month_len env1.month hm1 hm2])
  injection hkey with hx2 hkey
  obtain ⟨hu, -⟩ := append_dot_inj env2.uuid env1.uuid _ _ hd2 hd1 hkey
  exact hne hu

/-- Witness for C6: two concrete uploads of the same file with distinct fresh
UUIDs, with the key shape and distinctness instantiated. -/
theorem store_key_shape_and_uniqueness_witness :
    POST (some fileA) sampleServerEnv = ⟨200, .ok sampleResult1⟩ ∧
      POST (some fileA) sampleServerEnv2 = ⟨200, .ok sampleResult2⟩ ∧
      sampleResult1.s3_key
        = "user-uploads/drawings/".data ++ Nat.toDigits 10 sampleServerEnv.year ++ "/".data
          ++ pad2 (Nat.toDigits 10 sampleServerEnv.month) ++ "/".data
          ++ sampleServerEnv.uuid ++ ".".data ++ extOf fileA.name ∧
      sampleResult2.s3_key ≠ sampleResult1.s3_key := by
  refine ⟨by decide, by decide, ?_, ?_⟩
  · exact ((store_key_shape_and_uniqueness fileA sampleServerEnv sampleResult1 (by decide)
      (by decide) (by decide) (by decide) (by decide)).1).1
  · exact (store_key_shape_and_uniqueness fileA sampleServerEnv sampleResult1 (by decide)
      (by decide) (by decide) (by decide) (by decide)).2 fileA sampleServerEnv2 sampleResult2
      (by decide) (by decide) (by decide) (by decide) (by decide) (by decide) (by decide)
      (by decide)

/-! ## C7: base64 encoding round trip -/

theorem sextetVal_sextetChar : ∀ n, n < 64 → sextetVal (sextetChar n) = n := by decide

theorem sextetChar_ne_pad : ∀ n, n < 64 → ¬ sextetChar n = '=' := by decide

theorem sextetChar_ne_comma (n : Nat) : ¬ sextetChar n = ',' := by
  by_cases h : n < 64
  · exact (show ∀ m, m < 64 → ¬ sextetChar m = ',' by decide) n h
  · unfold sextetChar
    rw [List.getD_eq_default]
    · decide
    · have hlen : base64Chars.length = 64 := by decide
      omega

theorem comma_not_mem_base64Encode : ∀ (l : List Nat), ',' ∉ base64Encode l
  | [] => List.not_mem_nil ','
  | [b1] => by
    intro hmem
    simp only [base64Encode, List.mem_cons, List.not_mem_nil, or_false] at hmem
    rcases hmem with h | h | h | h
    · exact sextetChar_ne_comma _ h.symm
    · exact sextetChar_ne_comma _ h.symm
    · exact absurd h (by decide)
    · exact absurd h (by decide)
  | [b1, b2] => by
    intro hmem
    simp only [base64Encode, List.mem_cons, List.not_mem_nil, or_false] at hmem
    rcases hmem with h | h | h | h
    · exact sextetChar_ne_comma _ h.symm
    · exact sextetChar_ne_comma _ h.symm
    · exact sextetChar_ne_comma _ h.symm
    · exact absurd h (by decide)
  | b1 :: b2 :: b3 :: rest => by
    intro hmem
    simp only [base64Encode, List.mem_cons] at hmem
    rcases hmem with h | h | h | h | h
    · exact sextetChar_ne_comma _ h.symm
    · exact sextetChar_ne_comma _ h.symm
    · exact sextetChar_ne_comma _ h.symm
    · exact sextetChar_ne_comma _ h.symm
    · exact comma_not_mem_base64Encode rest h

/-- Standard base64 decoding inverts the encoding on byte lists. -/
theorem base64_roundtrip : ∀ (l : List Nat), (∀ b ∈ l, b < 256) →
    base64Decode (base64Encode l) = l
  | [], _ => rfl
  | [b1], h => by
    have hb1 : b1 < 256 := h b1 (List.mem_singleton.mpr rfl)
    simp only [base64Encode, base64Decode]
    rw [if_pos trivial]
    rw [sextetVal_sextetChar _ (by omega), sextetVal_sextetChar _ (by omega)]
    have e1 : b1 / 4 * 4 + b1 % 4 * 16 / 16 = b1 := by omega
    rw [e1]
  | [b1, b2], h => by
    have hb1 : b1 < 256 := h b1 (List.mem_cons_self _ _)
    have hb2 : b2 < 256 := h b2 (List.mem_cons_of_mem _ (List.mem_singleton.mpr rfl))
    simp only [base64Encode, base64Decode]
    rw [if_neg (sextetChar_ne_pad _ (by omega)), if_pos trivial]
    rw [sextetVal_sextetChar _ (by omega), sextetVal_sextetChar _ (by omega),
      sextetVal_sextetChar _ (by omega)]
    have e1 : b1 / 4 * 4 + (b1 % 4 * 16 + b2 / 16) / 16 = b1 := by omega
    have e2 : (b1 % 4 * 16 + b2 / 16) % 16 * 16 + b2 % 16 * 4 / 4 = b2 := by omega
    rw [e1, e2]
  | b1 :: b2 :: b3 :: rest, h => by
    have hb1 : b1 < 256 := h b1 (List.mem_cons_self _ _)
    have hb2 : b2 < 256 := h b2 (List.mem_cons_of_mem _ (List.mem_cons_self _ _))
    have hb3 : b3 < 256 :=
      h b3 (List.mem_cons_of_mem _ (List.mem_cons_of_mem _ (List.mem_cons_self _ _)))
    simp only [base64Encode, base64Decode]
    rw [if_neg (sextetChar_ne_pad _ (by omega)), if_neg (sextetChar_ne_pad _ (by omega))]
    rw [sextetVal_sextetChar _ (by omega), sextetVal_sextetChar _ (by omega),
      sextetVal_sextetChar _ (by omega), sextetVal_sextetChar _ (by omega)]
    have e1 : b1 / 4 * 4 + (b1 % 4 * 16 + b2 / 16) / 16 = b1 := by omega
    have e2 : (b1 % 4 * 16 + b2 / 16) % 16 * 16 + (b2 % 16 * 4 + b3 / 64) / 4 = b2 := by omega
    have e3 : (b2 % 16 * 4 + b3 / 64) % 4 * 64 + b3 % 64 = b3 := by omega
    rw [e1, e2, e3,
      base64_roundtrip rest (fun b hbm =>
        h b (List.mem_cons_of_mem _ (List.mem_cons_of_mem _ (List.mem_cons_of_mem _ hbm))))]

theorem jsSplitChar_of_not_mem {sep : Char} : ∀ {l : JStr}, sep ∉ l → jsSplitChar sep l = [l]
  | [], _ => rfl
  | c :: rest, h => by
    have hc : ¬ c = sep := by
      intro he
      exact h (by rw [he]; exact List.mem_cons_self sep rest)
    simp only [jsSplitChar, if_neg hc]
    rw [jsSplitChar_of_not_mem (fun hx => h (List.mem_cons_of_mem c hx))]

theorem jsSplitChar_append_sep (sep : Char) : ∀ (xs ys : JStr), sep ∉ xs →
    jsSplitChar sep (xs ++ sep :: ys) = xs :: jsSplitChar sep ys
  | [], ys, _ => by
    simp [jsSplitChar]
  | x :: xs, ys, h => by
    have hx : ¬ x = sep := by
      intro he
      exact h (by rw [he]; exact List.mem_cons_self sep xs)
    simp only [List.cons_append, jsSplitChar, if_neg hx, List.append_eq]
    rw [jsSplitChar_append_sep sep xs ys (fun hm => h (List.mem_cons_of_mem x hm))]

theorem not_mem_of_mem_jsSplitChar (sep : Char) : ∀ (l p : JStr),
    p ∈ jsSplitChar sep l → sep ∉ p
  | [], p, hp => by
    simp only [jsSplitChar, List.mem_singleton] at hp
    subst hp
    exact List.not_mem_nil sep
  | c :: rest, p, hp => by
    by_cases hc : c = sep
    · simp only [jsSplitChar, if_pos hc] at hp
      rcases List.mem_cons.mp hp with rfl | hp'
      · exact List.not_mem_nil sep
      · exact not_mem_of_mem_jsSplitChar sep rest p hp'
    · simp only [jsSplitChar, if_neg hc] at hp
      rcases hsp : jsSplitChar sep rest with _ | ⟨g, gs⟩
      · rw [hsp] at hp
        simp only [List.mem_singleton] at hp
        subst hp
        intro hm
        exact hc (List.mem_singleton.mp hm).symm
      · rw [hsp] at hp
        rcases List.mem_cons.mp hp with rfl | hp'
        · intro hm
          rcases List.mem_cons.mp hm with he | hm'
          · exact hc he.symm
          · exact not_mem_of_mem_jsSplitChar sep rest g
              (by rw [hsp]; exact List.mem_cons_self g gs) hm'
        · exact not_mem_of_mem_jsSplitChar sep rest p
            (by rw [hsp]; exact List.mem_cons_of_mem g hp')

/-- The value `fileToBase64` resolves with never contains a comma, hence never a
`data:...;base64,` transport prefix. -/
theorem fileToBase64_no_comma (file : File) (d : JStr) (h : fileToBase64 file = some d) :
    ',' ∉ d := by
  unfold fileToBase64 at h
  exact not_mem_of_mem_jsSplitChar ',' (readAsDataURL file) d (List.get?_mem h)

/-- For a comma-free declared media type, `fileToBase64` returns exactly the
base64 encoding of the file bytes. -/
theorem fileToBase64_eq (file : File) (h : ',' ∉ file.type) :
    fileToBase64 file = some (base64Encode file.bytes) := by
  unfold fileToBase64 readAsDataURL
  have hdot : ";base64,".data = ";base64".data ++ [','] := by decide
  rw [hdot]
  rw [← List.append_assoc ("data:".data ++ file.type) ";base64".data [',']]
  rw [List.append_assoc (("data:".data ++ file.type) ++ ";base64".data) [',']
    (base64Encode file.bytes)]
  rw [List.singleton_append]
  have hxs : ',' ∉ ("data:".data ++ file.type) ++ ";base64".data := by
    intro hm
    rcases List.mem_append.mp hm with hm | hm
    · rcases List.mem_append.mp hm with hm | hm
      · exact absurd hm (by decide)
      · exact h hm
    · exact absurd hm (by decide)
  rw [jsSplitChar_append_sep ',' _ _ hxs]
  rw [jsSplitChar_of_not_mem (comma_not_mem_base64Encode file.bytes)]
  rfl

/-- C7: the encoder output never retains a transport-scheme prefix (the text it
resolves with contains no comma, so no `data:...;base64,` prefix survives; for a
comma-free declared media type it is exactly the base64 encoding of the bytes),
and for every file built as an image or inline file (PDF) block, base64-decoding
the block's inline data yields exactly the original file bytes. -/
theorem base64_blocks_roundtrip (file : File) (hb : ∀ b ∈ file.bytes, b < 256) :
    (∀ d, fileToBase64 file = some d → ',' ∉ d) ∧
    (',' ∉ file.type → fileToBase64 file = some (base64Encode file.bytes)) ∧
    (∀ env mt d nm, (fileToContentBlock file env).1 = .ok (.image mt d nm) →
      d = some (base64Encode file.bytes)
        ∧ base64Decode (base64Encode file.bytes) = file.bytes) ∧
    (∀ env mt d nm, (fileToContentBlock file env).1 = .ok (.fileB64 mt d nm) →
      d = some (base64Encode file.bytes)
        ∧ base64Decode (base64Encode file.bytes) = file.bytes) := by
  refine ⟨fun d h => fileToBase64_no_comma file d h, fun h => fileToBase64_eq file h, ?_, ?_⟩
  · intro env mt d nm h
    simp only [fileToContentBlock] at h
    split at h
    · simp at h
    · split at h
      · simp at h
      · split at h
        · next hcond =>
          have hmem : file.type ∈ supportedImageTypes := by
            simpa using hcond
          have hcomma : ',' ∉ file.type := by
            simp only [supportedImageTypes, List.mem_cons, List.mem_singleton,
              List.not_mem_nil, or_false] at hmem
            rcases hmem with he | he | he | he <;> rw [he] <;> decide
          simp only at h
          injection h with hb1
          injection hb1 with _ hd _
          exact ⟨hd ▸ fileToBase64_eq file hcomma, base64_roundtrip file.bytes hb⟩
        · split at h
          · simp at h
          · split at h
            · simp only [cadUploadBranch] at h
              split at h
              · simp at h
              · simp at h
            · simp at h
  · intro env mt d nm h
    simp only [fileToContentBlock] at h
    split at h
    · simp at h
    · split at h
      · simp at h
      · split at h
        · simp at h
        · split at h
          · next hpdf =>
            have he : file.type = "application/pdf".data := by
              simpa using hpdf
            have hcomma : ',' ∉ file.type := by
              rw [he]
              decide
            simp only at h
            injection h with hb1
            injection hb1 with _ hd _
            exact ⟨hd ▸ fileToBase64_eq file hcomma, base64_roundtrip file.bytes hb⟩
          · split at h
            · simp only [cadUploadBranch] at h
              split at h
              · simp at h
              · simp at h
            · simp at h

/-- Witness for C7 at a concrete PNG-typed file with bytes `[1, 2, 3]`. -/
theorem base64_blocks_roundtrip_witness :
    (∀ b ∈ fileDwgPng.bytes, b < 256) ∧
      fileToBase64 fileDwgPng = some (base64Encode fileDwgPng.bytes) ∧
      base64Decode (base64Encode fileDwgPng.bytes) = fileDwgPng.bytes := by
  refine ⟨by decide, ?_, ?_⟩
  · exact (base64_blocks_roundtrip fileDwgPng (by decide)).2.1 (by decide)
  · exact ((base64_blocks_roundtrip fileDwgPng (by decide)).2.2.1 envUploadOk
      "image/png".data (some "AQID".data) "a.dwg".data (by decide)).2
